import Mathlib

/-!
# Verification of the PDF translation worker pipeline

Shallow embedding of `src/translation-worker/src/worker.py`.

The worker pulls a translation job, downloads a PDF, extracts the text of
every page, and then, page by page, renders the page to an image, translates
the page text, appends a result record, and updates the job's progress in the
external queue store.  External collaborators (HTTP fetch, PyPDF2 extraction,
pdf2image rasterization, the Gemini backend, the RQ/Redis progress store) are
modelled as an explicit environment `Env` of oracles; the worker's own logic
(control flow, per-page exception containment, result construction, tier
selection, resize arithmetic) is translated function by function.

Python floats are handled as follows.  The resize arithmetic
`int(dim * (max_size / max(img.size)))` is modelled bit-exactly in IEEE
binary64: `fl64div`/`fl64mul` below implement correctly rounded
(round-to-nearest, ties-to-even) division and multiplication on normalized
53-bit mantissa--exponent pairs, and `int(x)` truncates.  The progress
percentage `int((i / total) * 100)` is modelled as the exact
`i * 100 / total`; the binary64 evaluation can come out one lower for some
pairs (e.g. `i = 29, total = 100` gives 28), but it is monotone in `i` and
exact at `i = total` (`total/total` is exactly `1.0`), which is all the
progress properties below depend on.
-/

namespace TranslationWorker

/-- Decidable equality of `Except` values, used to evaluate runs of the
pipeline on concrete environments. -/
instance {ε α : Type} [DecidableEq ε] [DecidableEq α] : DecidableEq (Except ε α) := fun a b =>
  match a, b with
  | .ok x, .ok y =>
      if h : x = y then isTrue (by rw [h]) else isFalse (by intro hc; cases hc; exact h rfl)
  | .error x, .error y =>
      if h : x = y then isTrue (by rw [h]) else isFalse (by intro hc; cases hc; exact h rfl)
  | .ok _, .error _ => isFalse (by intro hc; cases hc)
  | .error _, .ok _ => isFalse (by intro hc; cases hc)

/-- One call to the Gemini backend (`model.generate_content`): the model name
the call was routed to and the full prompt string sent.  This is ghost
instrumentation used to state which backend calls a run performs. -/
structure BackendCall where
  model : String
  prompt : String
deriving DecidableEq

/-- Outcome of the per-page progress update
(`Queue('translation-jobs').fetch_job(job_id)` followed by
`job.meta['progress'] = ...; job.save_meta()`):
either the job is not found (`if job:` guard fails, nothing written), or the
meta write succeeds, or the store interaction raises an exception. -/
inductive ProgressOutcome where
  | notFound : ProgressOutcome
  | written : ProgressOutcome
  | raised : String → ProgressOutcome
deriving DecidableEq

/-- A rendered page image as produced by `pdf2image.convert_from_path`,
abstracted to its pixel dimensions (`img.size == (width, height)` in PIL). -/
structure RawImage where
  width : Nat
  height : Nat
deriving DecidableEq

/-- The external world one job run interacts with:
* `httpStatus` — status of the `requests.get(blob_url)` response;
* `rawPages` — what `PyPDF2` yields: one raw text per page, or an exception
  while opening/parsing the document;
* `rasterize` — what `convert_from_path(pdf_path, first_page=i, last_page=i,
  dpi=200)` yields for page `i`: an image, an empty list (`none`), or an
  exception;
* `encodeB64` — the PIL `img.save(..., format, optimize, quality)` encoding
  followed by `base64.b64encode(...)`, as an opaque function of the save
  parameters and the (resized) image;
* `generate` — the Gemini backend: model name and prompt to response text or
  exception;
* `progress` — outcome of the progress-store interaction at page `i`. -/
structure Env where
  httpStatus : Nat
  rawPages : Except String (List String)
  rasterize : Nat → Except String (Option RawImage)
  encodeB64 : String → Nat → Bool → RawImage → String
  generate : String → String → Except String String
  progress : Nat → ProgressOutcome

/-- The job record consumed from the queue: `job_data['file']['name']`,
`job_data['blobUrl']`, `job_data['targetLanguage']`,
`job_data.get('userTier', 'free')`, `job_data.get('jobId')`. -/
structure Job where
  fileName : String
  blobUrl : String
  targetLanguage : String
  userTier : Option String
  jobId : Option String

/-- One per-page result record as built by `process_pdf_translation`
(lines 160-166 on success, lines 179-185 on per-page failure). -/
structure PageResult where
  page_number : Nat
  original_text : String
  translated_text : String
  page_image : Option String
  notes : String
deriving DecidableEq

/-- Observable behaviour of one run: the returned `results` list, the
sequence of progress percentages successfully written to the job store (in
the order they are written), and the backend calls made (tagged with the page
being processed when the call happened). -/
structure RunTrace where
  results : List PageResult
  writes : List Nat
  calls : List (Nat × BackendCall)
deriving DecidableEq

/-- A job-level error escaping `process_pdf_translation`:
`response.raise_for_status()` raising on the document fetch (it raises
exactly for the client/server error statuses `400 ≤ status < 600`), or
`extract_text_from_pdf` raising while parsing the document. -/
inductive JobError where
  | fetchError : Nat → JobError
  | parseError : String → JobError
deriving DecidableEq

/-- Python `text.split()` (no separator): split on whitespace runs, dropping
empty pieces.  `cur` accumulates the current word, reversed. -/
def splitWs : List Char → List Char → List (List Char)
  | cur, [] => if cur.isEmpty then [] else [cur.reverse]
  | cur, c :: cs =>
      if c.isWhitespace then
        if cur.isEmpty then splitWs [] cs else cur.reverse :: splitWs [] cs
      else splitWs (c :: cur) cs

/-- Python `' '.join(words)`. -/
def joinSpace : List (List Char) → List Char
  | [] => []
  | [w] => w
  | w :: ws => w ++ ' ' :: joinSpace ws

/-- Python `' '.join(text.split())`: split on whitespace runs, drop empty
pieces, rejoin with single spaces. -/
def normalizeWs (s : String) : String :=
  String.mk (joinSpace (splitWs [] s.data))

/-- Python `not text.strip()`: the text is empty or whitespace-only. -/
def isBlank (s : String) : Bool :=
  s.data.all Char.isWhitespace

/-- `extract_text_from_pdf` (lines 37-52): for each page of the document,
take the raw extracted text and, when it is nonempty, normalize its
whitespace; any `PyPDF2` failure propagates. -/
def extract_text_from_pdf (env : Env) : Except String (List String) :=
  match env.rawPages with
  | .error e => .error e
  | .ok pages => .ok (pages.map fun t => if t = "" then t else normalizeWs t)

/-- `max_size = 1500` (line 72). -/
def maxSize : Nat := 1500

/-! ### IEEE binary64 arithmetic

The resize step computes `ratio = max_size / max(img.size)` and
`int(dim * ratio)` in Python floats.  The following is a bit-exact model of
positive (and zero) binary64 values and of correctly rounded division and
multiplication: a nonzero value is a normalized pair `n·2^e` with
`2^52 ≤ n < 2^53`, every operation computes the exact result and rounds it
to the nearest representable value, ties to the even mantissa.  The model
was validated against the known binary64 results
`int((29/100)*100) = 28`, `int((1/3)*3) = 1`, `int((1/49)*49) = 0`,
`int((7/10)*10) = 7`, and the resize sizes 2147, 2227, 2246, 2294, 2307
whose longer edge comes out 1499.  (Subnormals and overflow are irrelevant
here: all values involved lie well inside the normal range, and the scaling
fuel 1100 covers the full binary64 exponent range.) -/

/-- Round `p / q` to the nearest integer, ties to even (`q > 0`). -/
def rdiv (p q : Nat) : Nat :=
  let d := p / q
  let r := p % q
  if 2 * r < q then d
  else if q < 2 * r then d + 1
  else if d % 2 = 0 then d else d + 1

/-- Minimal `j` (up to `fuel`) with `b ≤ a * 2 ^ j`. -/
def upScale : Nat → Nat → Nat → Nat
  | 0, _, _ => 0
  | fuel + 1, a, b => if b ≤ a then 0 else upScale fuel (2 * a) b + 1

/-- Maximal `k` (up to `fuel`) with `b * 2 ^ k ≤ a`. -/
def downScale : Nat → Nat → Nat → Nat
  | 0, _, _ => 0
  | fuel + 1, a, b => if a < 2 * b then 0 else downScale fuel a (2 * b) + 1

/-- A nonnegative binary64 value: zero (`mant = 0`), or a normalized
mantissa--exponent pair standing for `mant · 2 ^ exp` with
`2^52 ≤ mant < 2^53`. -/
structure Fl where
  mant : Nat
  exp : Int
deriving DecidableEq

/-- Renormalize after rounding (a rounded-up mantissa can reach `2^53`). -/
def flNorm (n : Nat) (e : Int) : Fl :=
  if n = 2 ^ 53 then ⟨2 ^ 52, e + 1⟩ else ⟨n, e⟩

/-- Correctly rounded binary64 division `a / b` of two naturals:
`L = ⌊log2 (a/b)⌋` is found by binary scaling, the 53-bit mantissa is the
round-to-nearest-even of `(a/b) · 2^(52-L)`. -/
def fl64div (a b : Nat) : Fl :=
  if a = 0 ∨ b = 0 then ⟨0, 0⟩
  else
    let L : Int := if b ≤ a then (downScale 1100 a b : Int) else -(upScale 1100 a b : Int)
    let n := if L ≤ 52 then rdiv (a * 2 ^ (52 - L).toNat) b
             else rdiv a (b * 2 ^ (L - 52).toNat)
    flNorm n (L - 52)

/-- Correctly rounded binary64 multiplication: the exact 105/106-bit product
of the mantissas is rounded back to 53 bits, ties to even. -/
def fl64mul (x y : Fl) : Fl :=
  if x.mant = 0 ∨ y.mant = 0 then ⟨0, 0⟩
  else
    let p := x.mant * y.mant
    let s : Nat := if p < 2 ^ 105 then 52 else 53
    flNorm (rdiv p (2 ^ s)) (x.exp + y.exp + s)

/-- The binary64 value of a natural number (exact below `2^53`, correctly
rounded above). -/
def fl64ofNat (d : Nat) : Fl := fl64div d 1

/-- Python `int(x)` on a nonnegative float: truncation toward zero. -/
def flTrunc (x : Fl) : Nat :=
  if 0 ≤ x.exp then x.mant * 2 ^ x.exp.toNat
  else x.mant / 2 ^ (-x.exp).toNat

/-- Python `int(dim * ratio)` for a natural `dim` and a float `ratio`. -/
def pyIntMul (d : Nat) (t : Fl) : Nat := flTrunc (fl64mul (fl64ofNat d) t)

/-- The resize step of `render_page_to_image` (lines 71-76):
if `max(img.size) > max_size`, set `ratio = max_size / max(img.size)` (one
binary64 division, computed once) and replace each dimension by
`int(dim * ratio)` (one binary64 multiplication and a truncation per
dimension). -/
def resizeImage (img : RawImage) : RawImage :=
  if maxSize < max img.width img.height then
    let ratio := fl64div maxSize (max img.width img.height)
    ⟨pyIntMul img.width ratio, pyIntMul img.height ratio⟩
  else img

/-- `format="PNG"` in `img.save(buffered, format="PNG", optimize=True,
quality=85)` (line 80). -/
def saveFormat : String := "PNG"

/-- `quality=85` in the `img.save` call (line 80). -/
def saveQuality : Nat := 85

/-- `optimize=True` in the `img.save` call (line 80). -/
def saveOptimize : Bool := true

/-- External codec fact, not part of the worker's code: the PNG format is
lossless, and PIL's PNG encoder ignores the `quality` argument. -/
def pngIsLossless : Bool := true

/-- The literal prefix of the returned data URI,
`f"data:image/png;base64,{img_str}"` (line 84). -/
def dataUriPrefix : String := "data:image/png;base64,"

/-- `render_page_to_image` (lines 54-87): rasterize the page at 200 DPI; an
empty image list raises `ValueError(f"No image generated for page {n}")`;
otherwise resize, encode as PNG, base64 it, and return the data URI.  Every
exception propagates to the caller (the function's own `except` re-raises). -/
def render_page_to_image (env : Env) (page : Nat) : Except String String :=
  match env.rasterize page with
  | .error e => .error e
  | .ok none => .error ("No image generated for page " ++ toString page)
  | .ok (some img) =>
      .ok (dataUriPrefix ++ env.encodeB64 saveFormat saveQuality saveOptimize (resizeImage img))

/-- The prompt built by `translate_text` (line 96). -/
def strPrompt (targetLang text : String) : String :=
  "Translate the following text to " ++ targetLang ++
    ". Preserve any formatting, numbers, and special characters: " ++ text

/-- `translate_text` (lines 89-114): if `not text.strip()`, return the
sentinel without touching the backend; otherwise call the backend once and
raise `ValueError("Empty translation response")` on a falsy response text.
The second component records the backend calls made (zero or one). -/
def translate_text (env : Env) (text targetLang modelName : String) :
    Except String String × List BackendCall :=
  if isBlank text then (.ok "[No text to translate]", [])
  else
    let call : BackendCall := ⟨modelName, strPrompt targetLang text⟩
    match env.generate modelName (strPrompt targetLang text) with
    | .error e => (.error e, [call])
    | .ok resp => if resp = "" then (.error "Empty translation response", [call]) else (.ok resp, [call])

/-- `model_name = 'gemini-2.0-flash' if user_tier == 'pro' else
'gemini-1.5-flash-8b'` with `user_tier = job_data.get('userTier', 'free')`
(lines 123-127). -/
def modelFor (job : Job) : String :=
  if job.userTier.getD "free" = "pro" then "gemini-2.0-flash" else "gemini-1.5-flash-8b"

/-- The degraded record appended by the per-page `except` handler
(lines 179-185). -/
def errorResult (i : Nat) (text msg : String) : PageResult :=
  { page_number := i
  , original_text := text
  , translated_text := "[Error: " ++ msg ++ "]"
  , page_image := none
  , notes := "Error processing page: " ++ msg }

/-- The success record built at lines 160-166. -/
def mkSuccess (modelName : String) (i : Nat) (text tt img : String) : PageResult :=
  { page_number := i
  , original_text := text
  , translated_text := tt
  , page_image := some img
  , notes := "Model: " ++ modelName ++ ". Mode: " ++
      (if isBlank text then "Image-Only" else "Text+Image") ++ "." }

/-- One iteration of the per-page loop (lines 150-185), including its
`try`/`except`: render, translate, append the success record, then update
progress; if any of these raises, append the degraded record instead and
continue.  Note that the progress update sits inside the `try` *after* the
success append, so a raising progress update appends a second record for the
same page. -/
def pageOutput (env : Env) (targetLang modelName : String) (total i : Nat) (text : String) :
    RunTrace :=
  match render_page_to_image env i with
  | .error e => ⟨[errorResult i text e], [], []⟩
  | .ok img =>
    match translate_text env text targetLang modelName with
    | (.error e, cs) => ⟨[errorResult i text e], [], cs.map fun c => (i, c)⟩
    | (.ok tt, cs) =>
      match env.progress i with
      | .notFound => ⟨[mkSuccess modelName i text tt img], [], cs.map fun c => (i, c)⟩
      | .written =>
          ⟨[mkSuccess modelName i text tt img], [i * 100 / total], cs.map fun c => (i, c)⟩
      | .raised e =>
          ⟨[mkSuccess modelName i text tt img, errorResult i text e], [],
            cs.map fun c => (i, c)⟩

/-- The message of the first exception raised while processing one page, if
any: rendering, then translation, then the progress update (all inside the
same per-page `try`). -/
def pageError (env : Env) (targetLang modelName : String) (i : Nat) (text : String) :
    Option String :=
  match render_page_to_image env i with
  | .error e => some e
  | .ok _ =>
    match translate_text env text targetLang modelName with
    | (.error e, _) => some e
    | (.ok _, _) =>
      match env.progress i with
      | .raised e => some e
      | _ => none

/-- `enumerate(page_texts, 1)`: pair each page text with its 1-based index. -/
def enumFrom : Nat → List String → List (Nat × String)
  | _, [] => []
  | k, t :: ts => (k, t) :: enumFrom (k + 1) ts

/-- Concatenation of run traces (the loop appends to `results`, performs the
progress writes, and makes the backend calls in page order). -/
def RunTrace.append (a b : RunTrace) : RunTrace :=
  ⟨a.results ++ b.results, a.writes ++ b.writes, a.calls ++ b.calls⟩

/-- The per-page loop of `process_pdf_translation` (lines 149-185), driven
over the enumerated page texts. -/
def runPages (env : Env) (targetLang modelName : String) (total : Nat) :
    List (Nat × String) → RunTrace
  | [] => ⟨[], [], []⟩
  | (i, t) :: rest =>
      RunTrace.append (pageOutput env targetLang modelName total i t)
        (runPages env targetLang modelName total rest)

/-- `process_pdf_translation` (lines 116-192): fetch the document
(`response.raise_for_status()` raises exactly when the status is a client
or server error, `400 ≤ status < 600`; terminal statuses outside that
range, including 3xx and nonstandard ≥ 600 ones, pass), extract all page
texts (a parse failure propagates), then run the per-page loop and return
the collected results.  The outer `except` re-raises, so fetch and parse
failures escape as job-level errors. -/
def process_pdf_translation (env : Env) (job : Job) : Except JobError RunTrace :=
  if 400 ≤ env.httpStatus ∧ env.httpStatus < 600 then
    .error (.fetchError env.httpStatus)
  else
    match extract_text_from_pdf env with
    | .error e => .error (.parseError e)
    | .ok page_texts =>
        .ok (runPages env job.targetLanguage (modelFor job) page_texts.length
          (enumFrom 1 page_texts))

/-- The association list underlying a result record: the exact keys of the
dicts built at lines 160-166 and 179-185, in construction order.  `DictVal`
mirrors the Python value kinds appearing there. -/
inductive DictVal where
  | str : String → DictVal
  | int : Nat → DictVal
  | null : DictVal
deriving DecidableEq

/-- The dict a `PageResult` stands for, with its exact key set. -/
def pageResultToDict (r : PageResult) : List (String × DictVal) :=
  [("page_number", DictVal.int r.page_number),
   ("original_text", DictVal.str r.original_text),
   ("translated_text", DictVal.str r.translated_text),
   ("page_image", r.page_image.elim DictVal.null DictVal.str),
   ("notes", DictVal.str r.notes)]

/-! ## Concrete jobs and environments

Used to evaluate the pipeline on explicit inputs (witnesses and
counterexamples). -/

/-- A free-tier job (no `userTier` key, so `get` falls back to `'free'`). -/
def jobA : Job := ⟨"doc.pdf", "http://blob/doc.pdf", "French", none, some "job-1"⟩

/-- A pro-tier job. -/
def jobPro : Job := ⟨"doc.pdf", "http://blob/doc.pdf", "French", some "pro", some "job-2"⟩

/-- One text page; every external step succeeds and the progress write lands. -/
def envAllOk : Env :=
  { httpStatus := 200
  , rawPages := .ok ["Hello   world"]
  , rasterize := fun _ => .ok (some ⟨100, 100⟩)
  , encodeB64 := fun _ _ _ _ => "IMG"
  , generate := fun _ _ => .ok "Bonjour"
  , progress := fun _ => .written }

/-- The trace of the healthy one-page run of `envAllOk` under `jobA`, used
to exercise run-level statements at a concrete input. -/
def traceAllOk : RunTrace :=
  runPages envAllOk jobA.targetLanguage (modelFor jobA) 1 (enumFrom 1 ["Hello world"])

/-- Two text pages; rasterization of page 1 raises, page 2 is healthy. -/
def envRenderFail : Env :=
  { httpStatus := 200
  , rawPages := .ok ["a", "b"]
  , rasterize := fun i => if i = 1 then .error "render boom" else .ok (some ⟨100, 100⟩)
  , encodeB64 := fun _ _ _ _ => "IMG"
  , generate := fun _ _ => .ok "T"
  , progress := fun _ => .written }

/-- One healthy text page, but the progress-store update raises after the
success record has been appended. -/
def envProgressRaise : Env :=
  { httpStatus := 200
  , rawPages := .ok ["hello"]
  , rasterize := fun _ => .ok (some ⟨100, 100⟩)
  , encodeB64 := fun _ _ _ _ => "IMG"
  , generate := fun _ _ => .ok "T"
  , progress := fun _ => .raised "redis connection lost" }

/-- A single page whose rasterization raises: the run completes but performs
no progress write at all. -/
def envC3 : Env :=
  { httpStatus := 200
  , rawPages := .ok ["hello"]
  , rasterize := fun _ => .error "boom"
  , encodeB64 := fun _ _ _ _ => "IMG"
  , generate := fun _ _ => .ok "T"
  , progress := fun _ => .written }

/-- A single whitespace-only page whose rasterization raises. -/
def envBlankFail : Env :=
  { httpStatus := 200
  , rawPages := .ok ["   "]
  , rasterize := fun _ => .error "render boom"
  , encodeB64 := fun _ _ _ _ => "IMG"
  , generate := fun _ _ => .ok "T"
  , progress := fun _ => .written }

/-- A single empty page; everything else succeeds. -/
def envBlank : Env :=
  { httpStatus := 200
  , rawPages := .ok [""]
  , rasterize := fun _ => .ok (some ⟨100, 100⟩)
  , encodeB64 := fun _ _ _ _ => "IMG"
  , generate := fun _ _ => .ok "T"
  , progress := fun _ => .written }

/-- A non-2xx, non-error terminal response (`304`): `raise_for_status()`
does not raise below 400, so the run proceeds. -/
def env304 : Env :=
  { httpStatus := 304
  , rawPages := .ok ["hello"]
  , rasterize := fun _ => .ok (some ⟨100, 100⟩)
  , encodeB64 := fun _ _ _ _ => "IMG"
  , generate := fun _ _ => .ok "T"
  , progress := fun _ => .written }

/-- A failed document fetch (HTTP 404). -/
def env404 : Env :=
  { httpStatus := 404
  , rawPages := .ok ["hello"]
  , rasterize := fun _ => .ok (some ⟨100, 100⟩)
  , encodeB64 := fun _ _ _ _ => "IMG"
  , generate := fun _ _ => .ok "T"
  , progress := fun _ => .written }

/-! ## Structural lemmas about the per-page loop -/

@[simp]
lemma RunTrace.append_results (a b : RunTrace) :
    (RunTrace.append a b).results = a.results ++ b.results := rfl

@[simp]
lemma RunTrace.append_writes (a b : RunTrace) :
    (RunTrace.append a b).writes = a.writes ++ b.writes := rfl

@[simp]
lemma RunTrace.append_calls (a b : RunTrace) :
    (RunTrace.append a b).calls = a.calls ++ b.calls := rfl

@[simp]
lemma runPages_nil (env : Env) (targetLang modelName : String) (total : Nat) :
    runPages env targetLang modelName total [] = ⟨[], [], []⟩ := rfl

@[simp]
lemma runPages_cons (env : Env) (targetLang modelName : String) (total i : Nat)
    (t : String) (rest : List (Nat × String)) :
    runPages env targetLang modelName total ((i, t) :: rest) =
      RunTrace.append (pageOutput env targetLang modelName total i t)
        (runPages env targetLang modelName total rest) := rfl

lemma runPages_results (env : Env) (targetLang modelName : String) (total : Nat)
    (l : List (Nat × String)) :
    (runPages env targetLang modelName total l).results =
      l.flatMap fun p => (pageOutput env targetLang modelName total p.1 p.2).results := by
  induction l with
  | nil => rfl
  | cons p rest ih => rcases p with ⟨i, t⟩; simp [ih]

lemma runPages_writes (env : Env) (targetLang modelName : String) (total : Nat)
    (l : List (Nat × String)) :
    (runPages env targetLang modelName total l).writes =
      l.flatMap fun p => (pageOutput env targetLang modelName total p.1 p.2).writes := by
  induction l with
  | nil => rfl
  | cons p rest ih => rcases p with ⟨i, t⟩; simp [ih]

lemma runPages_calls (env : Env) (targetLang modelName : String) (total : Nat)
    (l : List (Nat × String)) :
    (runPages env targetLang modelName total l).calls =
      l.flatMap fun p => (pageOutput env targetLang modelName total p.1 p.2).calls := by
  induction l with
  | nil => rfl
  | cons p rest ih => rcases p with ⟨i, t⟩; simp [ih]

/-- Every record emitted for page `i` carries page number `i` and the page's
extracted text, on the success path and on the degraded path alike. -/
lemma pageOutput_fields (env : Env) (targetLang modelName : String) (total i : Nat)
    (text : String) :
    ∀ r ∈ (pageOutput env targetLang modelName total i text).results,
      r.page_number = i ∧ r.original_text = text := by
  intro r hr
  cases hrd : render_page_to_image env i with
  | error e =>
    simp only [pageOutput, hrd, List.mem_singleton] at hr
    subst hr; exact ⟨rfl, rfl⟩
  | ok img =>
    rcases htc : translate_text env text targetLang modelName with ⟨te, cs⟩
    cases te with
    | error e =>
      simp only [pageOutput, hrd, htc, List.mem_singleton] at hr
      subst hr; exact ⟨rfl, rfl⟩
    | ok tt =>
      cases hp : env.progress i with
      | notFound =>
        simp only [pageOutput, hrd, htc, hp, List.mem_singleton] at hr
        subst hr; exact ⟨rfl, rfl⟩
      | written =>
        simp only [pageOutput, hrd, htc, hp, List.mem_singleton] at hr
        subst hr; exact ⟨rfl, rfl⟩
      | raised e =>
        simp only [pageOutput, hrd, htc, hp, List.mem_cons, List.not_mem_nil,
          or_false] at hr
        rcases hr with rfl | rfl
        · exact ⟨rfl, rfl⟩
        · exact ⟨rfl, rfl⟩

/-- Page `i` always contributes at least one record. -/
lemma pageOutput_nonempty (env : Env) (targetLang modelName : String) (total i : Nat)
    (text : String) :
    ∃ r ∈ (pageOutput env targetLang modelName total i text).results, r.page_number = i := by
  cases hrd : render_page_to_image env i with
  | error e => exact ⟨errorResult i text e, by simp [pageOutput, hrd], rfl⟩
  | ok img =>
    rcases htc : translate_text env text targetLang modelName with ⟨te, cs⟩
    cases te with
    | error e => exact ⟨errorResult i text e, by simp [pageOutput, hrd, htc], rfl⟩
    | ok tt =>
      cases hp : env.progress i with
      | notFound =>
        exact ⟨mkSuccess modelName i text tt img, by simp [pageOutput, hrd, htc, hp], rfl⟩
      | written =>
        exact ⟨mkSuccess modelName i text tt img, by simp [pageOutput, hrd, htc, hp], rfl⟩
      | raised e =>
        exact ⟨mkSuccess modelName i text tt img, by simp [pageOutput, hrd, htc, hp], rfl⟩

/-- If some step of page `i` raises with message `m`, the degraded record for
page `i` built from `m` is among the page's emitted records. -/
lemma pageError_some_mem (env : Env) (targetLang modelName : String) (total i : Nat)
    (text m : String)
    (h : pageError env targetLang modelName i text = some m) :
    errorResult i text m ∈ (pageOutput env targetLang modelName total i text).results := by
  cases hrd : render_page_to_image env i with
  | error e =>
    simp only [pageError, hrd, Option.some.injEq] at h
    subst h; simp [pageOutput, hrd]
  | ok img =>
    rcases htc : translate_text env text targetLang modelName with ⟨te, cs⟩
    cases te with
    | error e =>
      simp only [pageError, hrd, htc, Option.some.injEq] at h
      subst h; simp [pageOutput, hrd, htc]
    | ok tt =>
      cases hp : env.progress i with
      | notFound =>
        simp only [pageError, hrd, htc, hp] at h
        exact Option.noConfusion h
      | written =>
        simp only [pageError, hrd, htc, hp] at h
        exact Option.noConfusion h
      | raised e =>
        simp only [pageError, hrd, htc, hp, Option.some.injEq] at h
        subst h; simp [pageOutput, hrd, htc, hp]

/-- If no step of page `i` raises, the page contributes exactly one record,
a success record, whose image is present. -/
lemma pageError_none_success (env : Env) (targetLang modelName : String) (total i : Nat)
    (text : String)
    (h : pageError env targetLang modelName i text = none) :
    ∃ tt img, (pageOutput env targetLang modelName total i text).results =
      [mkSuccess modelName i text tt img] := by
  cases hrd : render_page_to_image env i with
  | error e =>
    simp only [pageError, hrd] at h
    exact Option.noConfusion h
  | ok img =>
    rcases htc : translate_text env text targetLang modelName with ⟨te, cs⟩
    cases te with
    | error e =>
      simp only [pageError, hrd, htc] at h
      exact Option.noConfusion h
    | ok tt =>
      cases hp : env.progress i with
      | notFound => exact ⟨tt, img, by simp [pageOutput, hrd, htc, hp]⟩
      | written => exact ⟨tt, img, by simp [pageOutput, hrd, htc, hp]⟩
      | raised e =>
        simp only [pageError, hrd, htc, hp] at h
        exact Option.noConfusion h

/-- Page `i` performs either no progress write or exactly the single write
`int((i / total) * 100)`. -/
lemma pageOutput_writes_cases (env : Env) (targetLang modelName : String) (total i : Nat)
    (text : String) :
    (pageOutput env targetLang modelName total i text).writes = [] ∨
    (pageOutput env targetLang modelName total i text).writes = [i * 100 / total] := by
  cases hrd : render_page_to_image env i with
  | error e => exact Or.inl (by simp [pageOutput, hrd])
  | ok img =>
    rcases htc : translate_text env text targetLang modelName with ⟨te, cs⟩
    cases te with
    | error e => exact Or.inl (by simp [pageOutput, hrd, htc])
    | ok tt =>
      cases hp : env.progress i with
      | notFound => exact Or.inl (by simp [pageOutput, hrd, htc, hp])
      | written => exact Or.inr (by simp [pageOutput, hrd, htc, hp])
      | raised e => exact Or.inl (by simp [pageOutput, hrd, htc, hp])

/-- Every backend call recorded by `translate_text` is routed to the model it
was given. -/
lemma translate_text_calls_model (env : Env) (text targetLang modelName : String) :
    ∀ c ∈ (translate_text env text targetLang modelName).2, c.model = modelName := by
  unfold translate_text
  by_cases hb : isBlank text
  · simp [hb]
  · simp only [hb, Bool.false_eq_true, if_false]
    cases env.generate modelName (strPrompt targetLang text) with
    | error e => simp
    | ok resp =>
      by_cases hresp : resp = "" <;> simp [hresp]

/-- Every backend call made while processing page `i` is tagged with `i` and
routed to the model the page was given. -/
lemma pageOutput_calls_model (env : Env) (targetLang modelName : String) (total i : Nat)
    (text : String) :
    ∀ c ∈ (pageOutput env targetLang modelName total i text).calls,
      c.1 = i ∧ c.2.model = modelName := by
  intro c hc
  have hcs := translate_text_calls_model env text targetLang modelName
  cases hrd : render_page_to_image env i with
  | error e => simp only [pageOutput, hrd, List.not_mem_nil] at hc
  | ok img =>
    rcases htc : translate_text env text targetLang modelName with ⟨te, cs⟩
    rw [htc] at hcs
    cases te with
    | error e =>
      simp only [pageOutput, hrd, htc, List.mem_map] at hc
      rcases hc with ⟨c', hc', rfl⟩
      exact ⟨rfl, hcs c' hc'⟩
    | ok tt =>
      cases hp : env.progress i with
      | notFound =>
        simp only [pageOutput, hrd, htc, hp, List.mem_map] at hc
        rcases hc with ⟨c', hc', rfl⟩
        exact ⟨rfl, hcs c' hc'⟩
      | written =>
        simp only [pageOutput, hrd, htc, hp, List.mem_map] at hc
        rcases hc with ⟨c', hc', rfl⟩
        exact ⟨rfl, hcs c' hc'⟩
      | raised e =>
        simp only [pageOutput, hrd, htc, hp, List.mem_map] at hc
        rcases hc with ⟨c', hc', rfl⟩
        exact ⟨rfl, hcs c' hc'⟩

/-- A blank page never touches the backend: no call is recorded for it. -/
lemma pageOutput_blank_calls (env : Env) (targetLang modelName : String) (total i : Nat)
    (text : String) (hb : isBlank text) :
    (pageOutput env targetLang modelName total i text).calls = [] := by
  have htr : translate_text env text targetLang modelName = (.ok "[No text to translate]", []) := by
    unfold translate_text; rw [if_pos hb]
  cases hrd : render_page_to_image env i with
  | error e => simp [pageOutput, hrd]
  | ok img =>
    cases hp : env.progress i with
    | notFound => simp [pageOutput, hrd, htr, hp]
    | written => simp [pageOutput, hrd, htr, hp]
    | raised e => simp [pageOutput, hrd, htr, hp]

/-- A blank page whose rasterization succeeds yields a success record whose
`translated_text` is the sentinel. -/
lemma pageOutput_blank_sentinel (env : Env) (targetLang modelName : String) (total i : Nat)
    (text img : String) (hb : isBlank text)
    (hr : render_page_to_image env i = .ok img) :
    mkSuccess modelName i text "[No text to translate]" img ∈
      (pageOutput env targetLang modelName total i text).results := by
  have htr : translate_text env text targetLang modelName = (.ok "[No text to translate]", []) := by
    unfold translate_text; rw [if_pos hb]
  cases hp : env.progress i with
  | notFound => simp [pageOutput, hr, htr, hp]
  | written => simp [pageOutput, hr, htr, hp]
  | raised e => simp [pageOutput, hr, htr, hp]

/-! ## Enumeration lemmas -/

lemma enumFrom_mem_bounds : ∀ (l : List String) (k : Nat) (p : Nat × String),
    p ∈ enumFrom k l → k ≤ p.1 ∧ p.1 < k + l.length := by
  intro l
  induction l with
  | nil => intro k p hp; cases hp
  | cons t ts ih =>
    intro k p hp
    cases hp with
    | head => simp
    | tail _ hp =>
      have := ih (k + 1) p hp
      constructor <;> [omega; simpa [Nat.add_comm, Nat.add_left_comm] using this.2]

lemma enumFrom_fst_inj : ∀ (l : List String) (k : Nat) (p q : Nat × String),
    p ∈ enumFrom k l → q ∈ enumFrom k l → p.1 = q.1 → p = q := by
  intro l
  induction l with
  | nil => intro k p q hp; cases hp
  | cons t ts ih =>
    intro k p q hp hq hpq
    cases hp with
    | head =>
      cases hq with
      | head => rfl
      | tail _ hq =>
        have := (enumFrom_mem_bounds ts (k + 1) q hq).1
        omega
    | tail _ hp =>
      cases hq with
      | head =>
        have := (enumFrom_mem_bounds ts (k + 1) p hp).1
        omega
      | tail _ hq => exact ih (k + 1) p q hp hq hpq

lemma enumFrom_getLast_mem : ∀ (l : List String) (k : Nat) (h : l ≠ []),
    (k + l.length - 1, l.getLast h) ∈ enumFrom k l
  | [], _, h => absurd rfl h
  | [t], k, _ => by simp [enumFrom]
  | t :: t2 :: ts, k, h => by
    have hne : t2 :: ts ≠ [] := List.cons_ne_nil t2 ts
    have hlast : (t :: t2 :: ts).getLast h = (t2 :: ts).getLast hne := List.getLast_cons hne
    have hrec := enumFrom_getLast_mem (t2 :: ts) (k + 1) hne
    have hlen : k + (t :: t2 :: ts).length - 1 = (k + 1) + (t2 :: ts).length - 1 := by
      simp only [List.length_cons]; omega
    rw [hlast, hlen]
    exact List.mem_cons_of_mem _ hrec

/-! ## Run-level lemmas -/

/-- When the fetch status passes `raise_for_status` and the extraction
succeeds, the run returns the per-page loop's trace. -/
lemma run_ok (env : Env) (job : Job) (texts : List String)
    (hf : env.httpStatus < 400) (he : extract_text_from_pdf env = .ok texts) :
    process_pdf_translation env job =
      .ok (runPages env job.targetLanguage (modelFor job) texts.length (enumFrom 1 texts)) := by
  unfold process_pdf_translation
  rw [if_neg (by omega), he]

/-- The progress writes of the loop, started at page `k`, form a
non-decreasing sequence bounded below by `int((k / total) * 100)`. -/
lemma runPages_writes_sorted (env : Env) (targetLang modelName : String) (total : Nat) :
    ∀ (texts : List String) (k : Nat),
      List.Chain' (fun a b => a ≤ b)
        ((runPages env targetLang modelName total (enumFrom k texts)).writes) ∧
      ∀ w ∈ (runPages env targetLang modelName total (enumFrom k texts)).writes,
        k * 100 / total ≤ w := by
  intro texts
  induction texts with
  | nil => intro k; exact ⟨List.chain'_nil, by simp [enumFrom]⟩
  | cons t ts ih =>
    intro k
    have hk : k * 100 / total ≤ (k + 1) * 100 / total :=
      Nat.div_le_div_right (Nat.mul_le_mul_right _ (Nat.le_succ k))
    obtain ⟨ihc, ihb⟩ := ih (k + 1)
    rcases pageOutput_writes_cases env targetLang modelName total k t with hw | hw
    · constructor
      · simpa [enumFrom, hw] using ihc
      · intro w hwmem
        simp only [enumFrom, runPages_cons, RunTrace.append_writes, hw, List.nil_append] at hwmem
        exact le_trans hk (ihb w hwmem)
    · constructor
      · simp only [enumFrom, runPages_cons, RunTrace.append_writes, hw, List.singleton_append]
        refine List.Chain'.cons' ihc ?_
        intro y hy
        exact le_trans hk (ihb y (List.mem_of_mem_head? hy))
      · intro w hwmem
        simp only [enumFrom, runPages_cons, RunTrace.append_writes, hw,
          List.singleton_append, List.mem_cons] at hwmem
        rcases hwmem with rfl | hwmem
        · exact le_refl _
        · exact le_trans hk (ihb w hwmem)

/-- Every progress write of the loop over pages `k, k+1, ...` is the
percentage of some page index that is in range. -/
lemma runPages_writes_shape (env : Env) (targetLang modelName : String) (total : Nat) :
    ∀ (texts : List String) (k : Nat),
      ∀ w ∈ (runPages env targetLang modelName total (enumFrom k texts)).writes,
        ∃ i, k ≤ i ∧ i < k + texts.length ∧ w = i * 100 / total := by
  intro texts
  induction texts with
  | nil => intro k w hw; simp [enumFrom] at hw
  | cons t ts ih =>
    intro k w hw
    rcases pageOutput_writes_cases env targetLang modelName total k t with hpw | hpw <;>
      simp only [enumFrom, runPages_cons, RunTrace.append_writes, hpw, List.nil_append,
        List.singleton_append, List.mem_cons] at hw
    · obtain ⟨i, h1, h2, h3⟩ := ih (k + 1) w hw
      exact ⟨i, by omega, by simp only [List.length_cons]; omega, h3⟩
    · rcases hw with rfl | hw
      · exact ⟨k, le_refl k, by simp, rfl⟩
      · obtain ⟨i, h1, h2, h3⟩ := ih (k + 1) w hw
        exact ⟨i, by omega, by simp only [List.length_cons]; omega, h3⟩

/-- In a non-decreasing list, an element that bounds every element is the
last one. -/
lemma chain_getLast_of_mem_of_max : ∀ (l : List Nat) (a : Nat),
    List.Chain' (fun x y => x ≤ y) l → a ∈ l → (∀ b ∈ l, b ≤ a) →
    l.getLast? = some a := by
  intro l
  induction l with
  | nil => intro a _ ha; cases ha
  | cons x xs ih =>
    intro a hchain ha hbound
    cases hxs : xs with
    | nil =>
      subst hxs
      simp only [List.mem_singleton] at ha
      simp [ha]
    | cons y ys =>
      subst hxs
      have hchain2 : List.Chain' (fun x y => x ≤ y) (y :: ys) := hchain.tail
      have hxy : x ≤ y := List.chain'_cons.mp hchain |>.1
      have hbound2 : ∀ b ∈ y :: ys, b ≤ a := fun b hb => hbound b (List.mem_cons_of_mem x hb)
      have hmem2 : a ∈ y :: ys := by
        rcases List.mem_cons.mp ha with rfl | h
        · have hya : y ≤ a := hbound y (by simp)
          have hay : a ≤ y := hxy
          have : y = a := le_antisymm hya hay
          rw [← this]; simp
        · exact h
      rw [List.getLast?_cons_cons]
      exact ih a hchain2 hmem2 hbound2

/-- Below the threshold the resize step leaves the image untouched. -/
lemma resizeImage_unchanged (img : RawImage) (hle : ¬ maxSize < max img.width img.height) :
    resizeImage img = img := by
  unfold resizeImage
  rw [if_neg hle]

/-- Above the threshold, both dimensions are replaced by the binary64
evaluation of `int(dim * (maxSize / max(size)))`. -/
lemma resizeImage_float (img : RawImage) (hlt : maxSize < max img.width img.height) :
    resizeImage img = ⟨pyIntMul img.width (fl64div maxSize (max img.width img.height)),
                       pyIntMul img.height (fl64div maxSize (max img.width img.height))⟩ := by
  unfold resizeImage
  rw [if_pos hlt]

/-! ## Claims -/

/-- C1: for every job whose document fetch and text extraction succeed, the
run never fails outward; for every page, if rasterization, translation or
any other per-page step raises with some message `m`, the degraded record
for that page — `translated_text` embedding `m`, `page_image` absent — is
still appended, and every page (including all pages after a failing one)
contributes a record, so one failing page never aborts the job. -/
theorem C1_per_page_failure_contained (env : Env) (job : Job) (texts : List String)
    (hf : env.httpStatus < 400) (he : extract_text_from_pdf env = .ok texts) :
    ∃ tr, process_pdf_translation env job = .ok tr ∧
      ∀ p ∈ enumFrom 1 texts,
        (∀ m, pageError env job.targetLanguage (modelFor job) p.1 p.2 = some m →
            errorResult p.1 p.2 m ∈ tr.results) ∧
        ∃ r ∈ tr.results, r.page_number = p.1 := by
  refine ⟨_, run_ok env job texts hf he, ?_⟩
  intro p hp
  rw [runPages_results]
  constructor
  · intro m hm
    exact List.mem_flatMap.mpr
      ⟨p, hp, pageError_some_mem env job.targetLanguage (modelFor job) texts.length p.1 p.2 m hm⟩
  · obtain ⟨r, hr, hrn⟩ :=
      pageOutput_nonempty env job.targetLanguage (modelFor job) texts.length p.1 p.2
    exact ⟨r, List.mem_flatMap.mpr ⟨p, hp, hr⟩, hrn⟩

/-- Witness for C1 at a concrete input: a two-page document whose first
page's rasterization raises. -/
theorem C1_per_page_failure_contained_witness :
    envRenderFail.httpStatus < 400 ∧
    extract_text_from_pdf envRenderFail = .ok ["a", "b"] ∧
    (∃ tr, process_pdf_translation envRenderFail jobA = .ok tr ∧
      ∀ p ∈ enumFrom 1 ["a", "b"],
        (∀ m, pageError envRenderFail jobA.targetLanguage (modelFor jobA) p.1 p.2 = some m →
            errorResult p.1 p.2 m ∈ tr.results) ∧
        ∃ r ∈ tr.results, r.page_number = p.1) :=
  ⟨by decide, by decide,
    C1_per_page_failure_contained envRenderFail jobA ["a", "b"] (by decide) (by decide)⟩

/-- C2 (bug demonstration): the claim promises exactly `N` results with page
numbers `1..N` regardless of which per-page step fails, but when the
progress-store update raises after the success record was already appended,
the `except` handler appends a second record for the same page: a one-page
document yields two records, both numbered 1. -/
theorem C2_duplicate_result_on_progress_failure :
    (process_pdf_translation envProgressRaise jobA).toOption.map
        (fun tr => tr.results.map (fun r => r.page_number)) = some [1, 1] := by
  decide

/-- C7: tier routing is a pure function of the job, fixed for the whole run:
`userTier == "pro"` selects `gemini-2.0-flash`, any other value (including
an absent tier, defaulting to `"free"`) selects `gemini-1.5-flash-8b`, and
every backend call of the run is routed to that one model. -/
theorem C7_tier_routing (env : Env) (job : Job) (texts : List String)
    (hf : env.httpStatus < 400) (he : extract_text_from_pdf env = .ok texts) :
    (modelFor job = "gemini-2.0-flash" ↔ job.userTier = some "pro") ∧
    (job.userTier = none → modelFor job = "gemini-1.5-flash-8b") ∧
    ∃ tr, process_pdf_translation env job = .ok tr ∧
      ∀ c ∈ tr.calls, c.2.model = modelFor job := by
  refine ⟨?_, ?_, _, run_ok env job texts hf he, ?_⟩
  · unfold modelFor
    cases hu : job.userTier with
    | none => decide
    | some t =>
      simp only [Option.getD_some, Option.some.injEq]
      by_cases ht : t = "pro"
      · subst ht; simp
      · rw [if_neg ht]
        constructor
        · intro h; exact absurd h (by decide)
        · intro h; exact absurd h ht
  · intro h; unfold modelFor; rw [h]; decide
  · intro c hc
    rw [runPages_calls] at hc
    obtain ⟨q, hq, hcq⟩ := List.mem_flatMap.mp hc
    exact (pageOutput_calls_model env job.targetLanguage (modelFor job)
      texts.length q.1 q.2 c hcq).2

/-- Witness for C7 at a concrete input: a pro-tier job over a one-page
document; the run makes one backend call and it is routed to the premium
model. -/
theorem C7_tier_routing_witness :
    envAllOk.httpStatus < 400 ∧
    extract_text_from_pdf envAllOk = .ok ["Hello world"] ∧
    ((modelFor jobPro = "gemini-2.0-flash" ↔ jobPro.userTier = some "pro") ∧
     (jobPro.userTier = none → modelFor jobPro = "gemini-1.5-flash-8b") ∧
     ∃ tr, process_pdf_translation envAllOk jobPro = .ok tr ∧
       ∀ c ∈ tr.calls, c.2.model = modelFor jobPro) :=
  ⟨by decide, by decide,
    C7_tier_routing envAllOk jobPro ["Hello world"] (by decide) (by decide)⟩

/-- C10: for every page, the `original_text` field of every record carrying
that page's number equals the extracted (whitespace-normalized) text that
was passed into the per-page processing, unchanged — in the success case and
in the degraded case alike. -/
theorem C10_original_text_preserved (env : Env) (job : Job) (texts : List String)
    (hf : env.httpStatus < 400) (he : extract_text_from_pdf env = .ok texts) :
    ∃ tr, process_pdf_translation env job = .ok tr ∧
      ∀ p ∈ enumFrom 1 texts, ∀ r ∈ tr.results,
        r.page_number = p.1 → r.original_text = p.2 := by
  refine ⟨_, run_ok env job texts hf he, ?_⟩
  intro p hp r hr hrp
  rw [runPages_results] at hr
  obtain ⟨q, hq, hrq⟩ := List.mem_flatMap.mp hr
  obtain ⟨hqn, hqt⟩ :=
    pageOutput_fields env job.targetLanguage (modelFor job) texts.length q.1 q.2 r hrq
  have hqp : q = p := enumFrom_fst_inj texts 1 q p hq hp (hqn.symm.trans hrp)
  rw [hqt, hqp]

/-- Witness for C10 at a concrete input: the whitespace-normalized page text
`"Hello world"` is preserved in the result record. -/
theorem C10_original_text_preserved_witness :
    envAllOk.httpStatus < 400 ∧
    extract_text_from_pdf envAllOk = .ok ["Hello world"] ∧
    (∃ tr, process_pdf_translation envAllOk jobA = .ok tr ∧
      ∀ p ∈ enumFrom 1 ["Hello world"], ∀ r ∈ tr.results,
        r.page_number = p.1 → r.original_text = p.2) :=
  ⟨by decide, by decide,
    C10_original_text_preserved envAllOk jobA ["Hello world"] (by decide) (by decide)⟩

/-- C3 counterexample: a one-page run whose page fails page-locally (the
claim's own premises allow this) completes, but performs *no* progress write
at all — the progress update only happens on the success path — so the final
value written is not 100. -/
theorem C3_counterexample_no_final_write :
    (process_pdf_translation envC3 jobA).toOption.map
        (fun tr => (tr.writes, tr.writes.getLast?)) = some ([], none) := by
  decide

/-- C3 (amended): the progress values written across any run are
non-decreasing, unconditionally; and provided the last page's processing
and its progress-store write succeed, the final value written equals 100,
reached at the last page.  (If the last page degrades, or the job is not
found in the store, or the store write raises, no write happens for it and
the final value stays below 100.) -/
theorem C3_progress_monotone_final (env : Env) (job : Job) :
    (∀ tr, process_pdf_translation env job = .ok tr →
        List.Chain' (fun a b => a ≤ b) tr.writes) ∧
    (∀ texts, ∀ hne : texts ≠ [],
        env.httpStatus < 400 → extract_text_from_pdf env = .ok texts →
        (pageOutput env job.targetLanguage (modelFor job) texts.length
            texts.length (texts.getLast hne)).writes ≠ [] →
        ∃ tr, process_pdf_translation env job = .ok tr ∧
          tr.writes.getLast? = some 100) := by
  constructor
  · intro tr htr
    unfold process_pdf_translation at htr
    by_cases hs : 400 ≤ env.httpStatus ∧ env.httpStatus < 600
    · rw [if_pos hs] at htr
      exact Except.noConfusion htr
    · rw [if_neg hs] at htr
      cases hex : extract_text_from_pdf env with
      | error m =>
        rw [hex] at htr
        exact Except.noConfusion htr
      | ok texts =>
        rw [hex] at htr
        have heq : runPages env job.targetLanguage (modelFor job) texts.length
            (enumFrom 1 texts) = tr := Except.ok.inj htr
        rw [← heq]
        exact (runPages_writes_sorted env job.targetLanguage (modelFor job)
          texts.length texts 1).1
  · intro texts hne hf he hlast
    refine ⟨_, run_ok env job texts hf he, ?_⟩
    have hlen : 0 < texts.length := List.length_pos.mpr hne
    have h100 : texts.length * 100 / texts.length = 100 :=
      Nat.mul_div_cancel_left 100 hlen
    rcases pageOutput_writes_cases env job.targetLanguage (modelFor job) texts.length
        texts.length (texts.getLast hne) with hw | hw
    · exact absurd hw hlast
    · have hpmem : (texts.length, texts.getLast hne) ∈ enumFrom 1 texts := by
        have hmem := enumFrom_getLast_mem texts 1 hne
        have heq : 1 + texts.length - 1 = texts.length := by omega
        rwa [heq] at hmem
      have hmem100 : (100 : Nat) ∈ (runPages env job.targetLanguage (modelFor job)
          texts.length (enumFrom 1 texts)).writes := by
        rw [runPages_writes]
        refine List.mem_flatMap.mpr ⟨(texts.length, texts.getLast hne), hpmem, ?_⟩
        rw [hw, h100]
        exact List.mem_singleton.mpr rfl
      have hbound : ∀ w ∈ (runPages env job.targetLanguage (modelFor job)
          texts.length (enumFrom 1 texts)).writes, w ≤ 100 := by
        intro w hwmem
        obtain ⟨i, h1, h2, rfl⟩ := runPages_writes_shape env job.targetLanguage (modelFor job)
          texts.length texts 1 w hwmem
        calc i * 100 / texts.length
            ≤ texts.length * 100 / texts.length :=
              Nat.div_le_div_right (Nat.mul_le_mul_right _ (by omega))
          _ = 100 := h100
      exact chain_getLast_of_mem_of_max _ 100
        (runPages_writes_sorted env job.targetLanguage (modelFor job) texts.length texts 1).1
        hmem100 hbound

/-- Witness for the amended C3 at a concrete input: the healthy one-page
run has non-decreasing writes and its final write is 100. -/
theorem C3_progress_monotone_final_witness :
    process_pdf_translation envAllOk jobA = .ok traceAllOk ∧
    List.Chain' (fun a b => a ≤ b) traceAllOk.writes ∧
    (["Hello world"] ≠ ([] : List String)) ∧
    envAllOk.httpStatus < 400 ∧
    extract_text_from_pdf envAllOk = .ok ["Hello world"] ∧
    (pageOutput envAllOk jobA.targetLanguage (modelFor jobA) 1 1 "Hello world").writes ≠ [] ∧
    (∃ tr, process_pdf_translation envAllOk jobA = .ok tr ∧
      tr.writes.getLast? = some 100) :=
  ⟨by decide,
   (C3_progress_monotone_final envAllOk jobA).1 traceAllOk (by decide),
   by decide, by decide, by decide, by decide,
   (C3_progress_monotone_final envAllOk jobA).2 ["Hello world"] (by decide) (by decide)
     (by decide) (by decide)⟩

/-- C4 counterexample: a whitespace-only page whose rasterization raises
makes no backend call, but its `translated_text` is the error marker, not
the `"[No text to translate]"` sentinel the claim promises for every blank
page. -/
theorem C4_counterexample_render_failure :
    (process_pdf_translation envBlankFail jobA).toOption.map
        (fun tr => (tr.calls,
          tr.results.map (fun r => (isBlank r.original_text, r.translated_text)))) =
      some ([], [(true, "[Error: render boom]")]) := by
  decide

/-- C4 (amended): for every page whose extracted text is empty or
whitespace-only, the translation backend is never invoked for that page;
and *provided that page's rasterization succeeds*, a record for the page
carries the sentinel `"[No text to translate]"` as its translated text
(when rasterization raises first, the page degrades to the error marker
instead, still without any backend call). -/
theorem C4_blank_page_skips_backend (env : Env) (job : Job) (texts : List String)
    (hf : env.httpStatus < 400) (he : extract_text_from_pdf env = .ok texts)
    (p : Nat × String) (hp : p ∈ enumFrom 1 texts) (hb : isBlank p.2) :
    ∃ tr, process_pdf_translation env job = .ok tr ∧
      (∀ c ∈ tr.calls, c.1 ≠ p.1) ∧
      ∀ img, render_page_to_image env p.1 = .ok img →
        ∃ r ∈ tr.results, r.page_number = p.1 ∧
          r.translated_text = "[No text to translate]" := by
  refine ⟨_, run_ok env job texts hf he, ?_, ?_⟩
  · intro c hc hcp
    rw [runPages_calls] at hc
    obtain ⟨q, hq, hcq⟩ := List.mem_flatMap.mp hc
    obtain ⟨hc1, _⟩ := pageOutput_calls_model env job.targetLanguage (modelFor job)
      texts.length q.1 q.2 c hcq
    have hqp : q = p := enumFrom_fst_inj texts 1 q p hq hp (hc1.symm.trans hcp)
    rw [hqp] at hcq
    rw [pageOutput_blank_calls env job.targetLanguage (modelFor job)
      texts.length p.1 p.2 hb] at hcq
    exact absurd hcq (List.not_mem_nil c)
  · intro img hrend
    refine ⟨mkSuccess (modelFor job) p.1 p.2 "[No text to translate]" img, ?_, rfl, rfl⟩
    rw [runPages_results]
    exact List.mem_flatMap.mpr
      ⟨p, hp, pageOutput_blank_sentinel env job.targetLanguage (modelFor job)
        texts.length p.1 p.2 img hb hrend⟩

/-- Witness for the amended C4 at a concrete input: an empty page with a
healthy rasterizer — no backend call, sentinel translated text. -/
theorem C4_blank_page_skips_backend_witness :
    envBlank.httpStatus < 400 ∧
    extract_text_from_pdf envBlank = .ok [""] ∧
    ((1, "") ∈ enumFrom 1 [""]) ∧
    isBlank "" = true ∧
    (∃ tr, process_pdf_translation envBlank jobA = .ok tr ∧
      (∀ c ∈ tr.calls, c.1 ≠ 1) ∧
      ∀ img, render_page_to_image envBlank 1 = .ok img →
        ∃ r ∈ tr.results, r.page_number = 1 ∧
          r.translated_text = "[No text to translate]") :=
  ⟨by decide, by decide, by decide, by decide,
    C4_blank_page_skips_backend envBlank jobA [""] (by decide) (by decide)
      (1, "") (by decide) (by decide)⟩

/-- C5 counterexample: the result records carry no `status` key at all — on
a run where page 1's rasterization fails and page 2 succeeds, both records
have exactly the keys `page_number`, `original_text`, `translated_text`,
`page_image`, `notes`. -/
theorem C5_counterexample_no_status_field :
    (process_pdf_translation envRenderFail jobA).toOption.map
        (fun tr => tr.results.map (fun r => (pageResultToDict r).map Prod.fst)) =
      some [["page_number", "original_text", "translated_text", "page_image", "notes"],
            ["page_number", "original_text", "translated_text", "page_image", "notes"]] := by
  decide

/-- C5 (amended): result records carry no `status` field; the distinction
the claim describes shows up in `page_image` instead: if page `k`'s
rasterization raises with message `m` while every other page processes
cleanly, then every record for page `k` has `page_image` absent and the
error marker as translated text, and every record for any other page has a
present `page_image`. -/
theorem C5_render_failure_marks_page (env : Env) (job : Job) (texts : List String)
    (k : Nat) (m : String)
    (hf : env.httpStatus < 400) (he : extract_text_from_pdf env = .ok texts)
    (hfail : env.rasterize k = .error m)
    (hok : ∀ p ∈ enumFrom 1 texts, p.1 ≠ k →
        pageError env job.targetLanguage (modelFor job) p.1 p.2 = none) :
    ∃ tr, process_pdf_translation env job = .ok tr ∧
      ∀ r ∈ tr.results,
        (r.page_number = k → r.page_image = none ∧
          r.translated_text = "[Error: " ++ m ++ "]") ∧
        (r.page_number ≠ k → ∃ s, r.page_image = some s) := by
  refine ⟨_, run_ok env job texts hf he, ?_⟩
  intro r hr
  rw [runPages_results] at hr
  obtain ⟨q, hq, hrq⟩ := List.mem_flatMap.mp hr
  obtain ⟨hqn, _⟩ :=
    pageOutput_fields env job.targetLanguage (modelFor job) texts.length q.1 q.2 r hrq
  constructor
  · intro hrk
    have hqk : q.1 = k := hqn.symm.trans hrk
    have hrend : render_page_to_image env q.1 = .error m := by
      rw [hqk]
      unfold render_page_to_image
      rw [hfail]
    have hres : (pageOutput env job.targetLanguage (modelFor job) texts.length q.1 q.2).results
        = [errorResult q.1 q.2 m] := by
      simp [pageOutput, hrend]
    rw [hres] at hrq
    simp only [List.mem_singleton] at hrq
    subst hrq
    exact ⟨rfl, rfl⟩
  · intro hrk
    have hqk : q.1 ≠ k := by
      intro hc
      exact hrk (hqn.trans hc)
    obtain ⟨tt, img, hres⟩ := pageError_none_success env job.targetLanguage (modelFor job)
      texts.length q.1 q.2 (hok q hq hqk)
    rw [hres] at hrq
    simp only [List.mem_singleton] at hrq
    subst hrq
    exact ⟨img, rfl⟩

/-- Witness for the amended C5 at a concrete input: page 1's rasterization
raises, page 2 is healthy. -/
theorem C5_render_failure_marks_page_witness :
    envRenderFail.httpStatus < 400 ∧
    extract_text_from_pdf envRenderFail = .ok ["a", "b"] ∧
    envRenderFail.rasterize 1 = .error "render boom" ∧
    (∀ p ∈ enumFrom 1 ["a", "b"], p.1 ≠ 1 →
        pageError envRenderFail jobA.targetLanguage (modelFor jobA) p.1 p.2 = none) ∧
    (∃ tr, process_pdf_translation envRenderFail jobA = .ok tr ∧
      ∀ r ∈ tr.results,
        (r.page_number = 1 → r.page_image = none ∧
          r.translated_text = "[Error: " ++ "render boom" ++ "]") ∧
        (r.page_number ≠ 1 → ∃ s, r.page_image = some s)) :=
  ⟨by decide, by decide, by decide, by decide,
    C5_render_failure_marks_page envRenderFail jobA ["a", "b"] 1 "render boom"
      (by decide) (by decide) (by decide) (by decide)⟩

/-- C6 counterexample: the claim calls *any* non-2xx response a fatal fetch
failure, but `raise_for_status()` raises only at status ≥ 400: a terminal
304 response is not treated as a fetch failure — the run proceeds and
produces a result instead of zero PageResults. -/
theorem C6_counterexample_status_304 :
    env304.httpStatus = 304 ∧
    (process_pdf_translation env304 jobA).toOption.map
        (fun tr => tr.results.length) = some 1 := by
  exact ⟨rfl, by decide⟩

/-- C6 (amended): exactly two failure kinds escape the pipeline as
job-level errors — document fetch failure (a client/server error status,
`400 ≤ status < 600`, raised by `raise_for_status`; terminal non-2xx
statuses outside that range, such as 304 or nonstandard ≥ 600 ones, pass)
and document parse failure — and whenever the run escapes, it returns no
PageResults; with fetch and parse healthy the run always returns,
converting every per-page failure into a degraded-but-present record. -/
theorem C6_error_escape_characterization (env : Env) (job : Job) :
    (∀ E, process_pdf_translation env job = .error E →
        (E = .fetchError env.httpStatus ∧ 400 ≤ env.httpStatus ∧ env.httpStatus < 600) ∨
        ∃ m, E = .parseError m ∧ extract_text_from_pdf env = .error m) ∧
    (400 ≤ env.httpStatus → env.httpStatus < 600 →
        process_pdf_translation env job = .error (.fetchError env.httpStatus)) ∧
    (∀ m, ¬ (400 ≤ env.httpStatus ∧ env.httpStatus < 600) →
        extract_text_from_pdf env = .error m →
        process_pdf_translation env job = .error (.parseError m)) ∧
    (∀ texts, env.httpStatus < 400 → extract_text_from_pdf env = .ok texts →
        ∃ tr, process_pdf_translation env job = .ok tr ∧
          ∀ p ∈ enumFrom 1 texts, ∀ m,
            pageError env job.targetLanguage (modelFor job) p.1 p.2 = some m →
              errorResult p.1 p.2 m ∈ tr.results) := by
  refine ⟨?_, ?_, ?_, ?_⟩
  · intro E hE
    unfold process_pdf_translation at hE
    by_cases hs : 400 ≤ env.httpStatus ∧ env.httpStatus < 600
    · rw [if_pos hs] at hE
      exact Or.inl ⟨(Except.error.inj hE).symm, hs.1, hs.2⟩
    · rw [if_neg hs] at hE
      cases hex : extract_text_from_pdf env with
      | error m =>
        rw [hex] at hE
        exact Or.inr ⟨m, (Except.error.inj hE).symm, rfl⟩
      | ok texts =>
        rw [hex] at hE
        exact Except.noConfusion hE
  · intro hs1 hs2
    unfold process_pdf_translation
    rw [if_pos ⟨hs1, hs2⟩]
  · intro m hs hex
    unfold process_pdf_translation
    rw [if_neg hs, hex]
  · intro texts hs hex
    refine ⟨_, run_ok env job texts hs hex, ?_⟩
    intro p hp m hm
    rw [runPages_results]
    exact List.mem_flatMap.mpr
      ⟨p, hp, pageError_some_mem env job.targetLanguage (modelFor job) texts.length p.1 p.2 m hm⟩

/-- Witness for the amended C6 at a concrete input: a 404 fetch escapes as
the fetch error (and hence yields no results). -/
theorem C6_error_escape_characterization_witness :
    400 ≤ env404.httpStatus ∧ env404.httpStatus < 600 ∧
    process_pdf_translation env404 jobA = .error (.fetchError 404) :=
  ⟨by decide, by decide,
    (C6_error_escape_characterization env404 jobA).2.1 (by decide) (by decide)⟩

/-- C8 counterexample: in binary64, `2147 * (1500 / 2147)` evaluates to
just under 1500 and truncates to 1499, so a 2147×1000 page is resized to
1499×698 — the longer edge does not equal exactly 1500 px. -/
theorem C8_counterexample_float_rounding :
    1500 < max 2147 1000 ∧
    resizeImage ⟨2147, 1000⟩ = ⟨1499, 698⟩ ∧
    (resizeImage ⟨2147, 1000⟩).width ≠ 1500 :=
  ⟨by decide, by decide, by decide⟩

set_option maxRecDepth 40000 in
/-- C8 (amended): if neither dimension of a rendered page image exceeds
1500 px, the image dimensions are unchanged; if either does, each dimension
becomes `int(dim * (1500 / max(size)))` evaluated in IEEE binary64
arithmetic, which brings the longer edge within one pixel of 1500 — for
every longer edge up to 4000 px it lands on 1499 or 1500 (kernel-verified
below) — but not always on exactly 1500: float rounding yields 1499 for
some sizes. -/
theorem C8_resize_float_bounds (w h : Nat) :
    (max w h ≤ 1500 → resizeImage ⟨w, h⟩ = ⟨w, h⟩) ∧
    (1500 < max w h →
      resizeImage ⟨w, h⟩ = ⟨pyIntMul w (fl64div 1500 (max w h)),
                            pyIntMul h (fl64div 1500 (max w h))⟩) ∧
    ((List.range' 1501 2500).all fun m =>
      ((resizeImage ⟨m, 1⟩).width == 1499 || (resizeImage ⟨m, 1⟩).width == 1500)) = true := by
  refine ⟨?_, ?_, ?_⟩
  · intro hle
    exact resizeImage_unchanged ⟨w, h⟩ (not_lt.mpr hle)
  · intro hlt
    exact resizeImage_float ⟨w, h⟩ hlt
  · decide

/-- Witness for the amended C8 at concrete inputs: a small image is
untouched, and a 3000×1000 image (whose ratio 0.5 is exact in binary64) is
scaled to 1500×500. -/
theorem C8_resize_float_bounds_witness :
    (max 800 600 ≤ 1500 ∧ resizeImage ⟨800, 600⟩ = ⟨800, 600⟩) ∧
    (1500 < max 3000 1000 ∧
      resizeImage ⟨3000, 1000⟩ = ⟨pyIntMul 3000 (fl64div 1500 (max 3000 1000)),
                                  pyIntMul 1000 (fl64div 1500 (max 3000 1000))⟩ ∧
      resizeImage ⟨3000, 1000⟩ = ⟨1500, 500⟩) :=
  ⟨⟨by decide, (C8_resize_float_bounds 800 600).1 (by decide)⟩,
   ⟨by decide, (C8_resize_float_bounds 3000 1000).2.1 (by decide), by decide⟩⟩

/-- C9 counterexample: the encoded payload is a PNG data URI, and PNG is a
lossless format (the `quality=85` argument is ignored by the PNG encoder) —
so the payload is not "a size-optimized lossy raster format" as the claim
states, even though the self-describing format-tag-plus-bytes shape holds. -/
theorem C9_counterexample_png_not_lossy :
    saveFormat = "PNG" ∧ pngIsLossless = true ∧
    render_page_to_image envAllOk 1 = .ok "data:image/png;base64,IMG" :=
  ⟨rfl, rfl, by decide⟩

/-- C9 (amended): every successfully rendered page image is encoded as PNG —
a *lossless* format — via `img.save(..., format="PNG", optimize=True,
quality=85)` (the quality argument having no effect on PNG), and is
returned as a self-describing payload: the `data:image/png;base64,` format
tag followed by the inline base64 bytes of the resized image. -/
theorem C9_payload_shape (env : Env) (page : Nat) (img : RawImage)
    (h : env.rasterize page = .ok (some img)) :
    render_page_to_image env page =
      .ok (dataUriPrefix ++ env.encodeB64 saveFormat saveQuality saveOptimize
        (resizeImage img)) ∧
    saveFormat = "PNG" ∧ saveQuality = 85 ∧ saveOptimize = true ∧
    dataUriPrefix = "data:image/png;base64," := by
  refine ⟨?_, rfl, rfl, rfl, rfl⟩
  unfold render_page_to_image
  rw [h]

/-- Witness for the amended C9 at a concrete input. -/
theorem C9_payload_shape_witness :
    envAllOk.rasterize 1 = .ok (some ⟨100, 100⟩) ∧
    (render_page_to_image envAllOk 1 =
        .ok (dataUriPrefix ++ envAllOk.encodeB64 saveFormat saveQuality saveOptimize
          (resizeImage ⟨100, 100⟩)) ∧
      saveFormat = "PNG" ∧ saveQuality = 85 ∧ saveOptimize = true ∧
      dataUriPrefix = "data:image/png;base64,") :=
  ⟨by decide, C9_payload_shape envAllOk 1 ⟨100, 100⟩ (by decide)⟩

end TranslationWorker
